import Mathlib

/-!
# Verification of the TMDB data-access layer

Shallow embedding of the optimized TMDB service module (caching layer,
request queue, batch fetcher, catalog transforms and enrichment pipeline)
together with proofs of the specification's testable properties.

JavaScript maps and `localStorage` are modelled as association lists from
`String` keys; `Date.now()` becomes an explicit `now : Nat` argument
(milliseconds); `Math.random()` becomes an explicit rational draw;
the network is an explicit oracle argument; fallible operations return
`Except`.
-/

namespace TMDB

/-- JS `String.prototype.startsWith`. -/
def jsStartsWith (s p : String) : Bool :=
  p.data.isPrefixOf s.data

/-- Lookup in an association list (models `Map.get` / `localStorage.getItem`). -/
def alookup {β : Type} : List (String × β) → String → Option β
  | [], _ => none
  | (k', v) :: rest, k => if k' = k then some v else alookup rest k

/-- Remove every binding of a key (used by `Map.set`'s overwrite and
`localStorage.removeItem`). -/
def aerase {β : Type} (l : List (String × β)) (k : String) : List (String × β) :=
  l.filter (fun p => p.1 ≠ k)

/-- Overwriting insert (models `Map.set` / `localStorage.setItem`). -/
def ainsert {β : Type} (l : List (String × β)) (k : String) (v : β) : List (String × β) :=
  (k, v) :: aerase l k

theorem alookup_aerase_self {β : Type} (l : List (String × β)) (k : String) :
    alookup (aerase l k) k = none := by
  induction l with
  | nil => rfl
  | cons p rest ih =>
    by_cases h : p.1 = k
    · simpa [aerase, h] using ih
    · simpa [aerase, alookup, h] using ih

theorem alookup_aerase_ne {β : Type} (l : List (String × β)) (k k' : String)
    (h : k ≠ k') : alookup (aerase l k) k' = alookup l k' := by
  induction l with
  | nil => rfl
  | cons p rest ih =>
    by_cases hp : p.1 = k
    · simp [aerase, alookup, hp, h, Ne.symm h] at ih ⊢
      simpa [aerase] using ih
    · by_cases hp' : p.1 = k'
      · simp [aerase, List.filter, alookup, hp, hp', Ne.symm h]
      · simp [aerase, List.filter, alookup, hp, hp'] at ih ⊢
        simpa [aerase] using ih

theorem alookup_ainsert_self {β : Type} (l : List (String × β)) (k : String) (v : β) :
    alookup (ainsert l k v) k = some v := by
  simp [ainsert, alookup]

theorem alookup_ainsert_ne {β : Type} (l : List (String × β)) (k k' : String) (v : β)
    (h : k ≠ k') : alookup (ainsert l k v) k' = alookup l k' := by
  simp [ainsert, alookup, h]
  exact alookup_aerase_ne l k k' h

/-- Looking a key up in a list filtered by a key-only predicate. -/
theorem alookup_filter_key {β : Type} (f : String → Bool) (l : List (String × β))
    (k : String) :
    alookup (l.filter (fun p => f p.1)) k = if f k then alookup l k else none := by
  induction l with
  | nil => simp [alookup]
  | cons p rest ih =>
    by_cases hp : f p.1
    · by_cases hk : p.1 = k
      · subst hk
        simp [alookup, hp]
      · simp [alookup, hp, hk, ih]
    · by_cases hk : p.1 = k
      · subst hk
        simp [alookup, hp, ih]
      · simp [alookup, hp, hk, ih]

/-! ## Caching layer (`localStorage` with 24h TTL, plus in-memory map) -/

/-- `CACHE_TTL = 24 * 60 * 60 * 1000` milliseconds. -/
def CACHE_TTL : Nat := 24 * 60 * 60 * 1000

/-- ` CACHE_PREFIX = 'tmdb_cache_'`. -/
def CACHE_PREFIX : String := "tmdb_cache_"

/-- `getCacheKey(type, id)` builds the namespaced cache key. -/
def getCacheKey (type : String) (id : String) : String :=
  CACHE_PREFIX ++ type ++ "_" ++ id

/-- A cache entry `{ data, timestamp }`. -/
structure CacheEntry (T : Type) where
  data : T
  timestamp : Nat
deriving DecidableEq, Repr

/-- A raw `localStorage` value: either a well-formed serialized entry or a
string `JSON.parse` throws on. -/
inductive LSVal (T : Type) where
  | corrupt
  | entry (e : CacheEntry T)
deriving DecidableEq, Repr

/-- The module-level mutable state of the caching layer: the in-memory
`Map`, whether `localStorage` operations succeed at all, and the
`localStorage` contents (which may also hold keys of other applications). -/
structure CacheState (T : Type) where
  memoryCache : List (String × CacheEntry T)
  localStorageAvailable : Bool
  localStorage : List (String × LSVal T)
deriving DecidableEq, Repr

/-- `getFromCache(key)`: memory tier first, then `localStorage`; an
unexpired persistent hit is promoted into memory; an expired persistent
entry is removed; any `localStorage`/parse failure is swallowed and
reported as a miss. Returns the value (or `none`) and the new state. -/
def getFromCache {T : Type} (now : Nat) (key : String) (s : CacheState T) :
    Option T × CacheState T :=
  match alookup s.memoryCache key with
  | some memCached =>
    if now - memCached.timestamp < CACHE_TTL then
      (some memCached.data, s)
    else
      getFromCacheLS now key s
  | none => getFromCacheLS now key s
where
  /-- The `localStorage` fallback inside `getFromCache`. -/
  getFromCacheLS (now : Nat) (key : String) (s : CacheState T) :
      Option T × CacheState T :=
    if s.localStorageAvailable then
      match alookup s.localStorage key with
      | some (LSVal.entry e) =>
        if now - e.timestamp < CACHE_TTL then
          (some e.data, { s with memoryCache := ainsert s.memoryCache key e })
        else
          (none, { s with localStorage := aerase s.localStorage key })
      | some LSVal.corrupt => (none, s)
      | none => (none, s)
    else
      (none, s)

/-- `saveToCache(key, data)`: always writes the in-memory map; best-effort
write to `localStorage`. -/
def saveToCache {T : Type} (now : Nat) (key : String) (data : T) (s : CacheState T) :
    CacheState T :=
  let e : CacheEntry T := ⟨data, now⟩
  { memoryCache := ainsert s.memoryCache key e
    localStorageAvailable := s.localStorageAvailable
    localStorage :=
      if s.localStorageAvailable then ainsert s.localStorage key (LSVal.entry e)
      else s.localStorage }

/-- `clearCache()`: empties the in-memory map and removes every
`localStorage` key starting with the namespace tag. -/
def clearCache {T : Type} (s : CacheState T) : CacheState T :=
  { memoryCache := []
    localStorageAvailable := s.localStorageAvailable
    localStorage :=
      if s.localStorageAvailable then
        s.localStorage.filter (fun p => ¬ jsStartsWith p.1 CACHE_PREFIX)
      else s.localStorage }

/-- A second read right after `saveToCache`, within the TTL, hits the
in-memory tier and leaves the state unchanged. -/
theorem getFromCache_after_save {T : Type} (now now' : Nat) (key : String) (d : T)
    (s : CacheState T) (h2 : now' - now < CACHE_TTL) :
    getFromCache now' key (saveToCache now key d s) =
      (some d, saveToCache now key d s) := by
  simp [getFromCache, saveToCache, alookup_ainsert_self, h2]

/-! ## TMDB data model (`src/types/movie.ts`) -/

/-- A JS `number` that may be `NaN` (what `new Date(bad).getFullYear()`
yields); all other numeric fields in this development are exact. -/
inductive JSNumber where
  | nan
  | num (n : Int)
deriving DecidableEq, Repr

/-- `TMDBGenre`. -/
structure TMDBGenre where
  id : Int
  name : String
deriving DecidableEq, Repr

/-- `TMDBMovie`, the raw catalog record. -/
structure TMDBMovie where
  id : Int
  title : String
  original_title : String
  overview : String
  poster_path : Option String
  backdrop_path : Option String
  release_date : String
  genre_ids : List Int
  vote_average : Rat
  vote_count : Int
  popularity : Rat
  adult : Bool
  original_language : String
  video : Bool
deriving DecidableEq, Repr

/-- `TMDBMovieDetails extends TMDBMovie`. -/
structure TMDBMovieDetails extends TMDBMovie where
  tagline : String
  runtime : Option Int
  genres : List TMDBGenre
  status : String
  budget : Int
  revenue : Int
  imdb_id : Option String
deriving DecidableEq, Repr

/-- `TMDBMovieResponse`, one page of catalog results. -/
structure TMDBMovieResponse where
  page : Int
  results : List TMDBMovie
  total_pages : Int
  total_results : Int
deriving DecidableEq, Repr

/-- `TMDBReleaseDate` (the sub-entries holding certification strings). -/
structure TMDBReleaseDate where
  certification : String
  descriptors : List String
  iso_639_1 : String
  note : String
  release_date : String
  type : Int
deriving DecidableEq, Repr

/-- `TMDBReleaseDateResult`, one country's release-date list. -/
structure TMDBReleaseDateResult where
  iso_3166_1 : String
  release_dates : List TMDBReleaseDate
deriving DecidableEq, Repr

/-- `TMDBReleaseDatesResponse`; `results` is `Option` because
`extractUSCertification` defensively checks `releaseDates?.results` for
absence in a malformed payload. -/
structure TMDBReleaseDatesResponse where
  id : Int
  results : Option (List TMDBReleaseDateResult)
deriving DecidableEq, Repr

/-- Combined response of `append_to_response=release_dates`. -/
structure TMDBMovieDetailsWithReleaseDates extends TMDBMovieDetails where
  release_dates : TMDBReleaseDatesResponse
deriving DecidableEq, Repr

/-- The application-facing `Movie` view model. -/
structure Movie where
  id : Int
  title : String
  year : JSNumber
  genre : List String
  tagline : String
  rating : String
  runtime : String
  available : Bool
  poster : String
  backdrop : Option String
  tmdbRating : Option Rat
  overview : Option String
deriving DecidableEq, Repr

/-- `{ details, certification }` as cached by the combined detail fetch. -/
structure CachedMovieDetails where
  details : TMDBMovieDetails
  certification : String
deriving DecidableEq, Repr

/-- The `{ movies, totalPages, totalResults }` page result. -/
structure FetchResult where
  movies : List Movie
  totalPages : Int
  totalResults : Int
deriving DecidableEq, Repr

/-! ## Pure catalog functions -/

/-- `extractUSCertification(releaseDates)`: the US entry's first non-empty
certification string, else the sentinel `"NR"`; total on every input shape. -/
def extractUSCertification (releaseDates : Option TMDBReleaseDatesResponse) : String :=
  match releaseDates with
  | none => "NR"
  | some rd =>
    match rd.results with
    | none => "NR"
    | some results =>
      match results.find? (fun r => r.iso_3166_1 = "US") with
      | some usRelease =>
        if usRelease.release_dates.length > 0 then
          match usRelease.release_dates.find? (fun x => x.certification ≠ "") with
          | some found => if found.certification ≠ "" then found.certification else "NR"
          | none => "NR"
        else "NR"
      | none => "NR"

/-- `mapGenreIds(genreIds, genreMap)`: resolve ids, silently dropping
unknown ones. -/
def mapGenreIds (genreIds : List Int) (genreMap : Int → Option String) : List String :=
  genreIds.filterMap genreMap

/-- `transformTMDBMovie(tmdbMovie, genreMap, certification, details)`.
`parseYear` models `new Date(s).getFullYear()` for non-empty `s`
(`none` = invalid date, i.e. `NaN`); `rand` is the `Math.random()` draw
behind the simulated availability flag. -/
def transformTMDBMovie (parseYear : String → Option Int) (rand : Rat)
    (tmdbMovie : TMDBMovie) (genreMap : Int → Option String)
    (certification : String := "NR") (details : Option TMDBMovieDetails := none) :
    Movie :=
  let year : JSNumber :=
    if tmdbMovie.release_date ≠ "" then
      match parseYear tmdbMovie.release_date with
      | some y => JSNumber.num y
      | none => JSNumber.nan
    else JSNumber.num 0
  let runtime : String :=
    match details with
    | some d =>
      match d.runtime with
      | some r => if r ≠ 0 then toString r ++ " min" else ""
      | none => ""
    | none => ""
  let tagline : String :=
    match details with
    | some d => d.tagline
    | none => ""
  { id := tmdbMovie.id
    title := tmdbMovie.title
    year := year
    genre := mapGenreIds tmdbMovie.genre_ids genreMap
    tagline := tagline
    rating := certification
    runtime := runtime
    available := (1 : Rat) / 10 < rand
    poster := tmdbMovie.poster_path.getD ""
    backdrop := none
    tmdbRating := some tmdbMovie.vote_average
    overview := some tmdbMovie.overview }

/-! ## Stateful API functions

The network is an explicit oracle; every function returns its value, the
caching layer's new state, and the number of network requests it issued. -/

/-- The `${genreId || 'all'}` cache-key fragment (JS truthiness: a genre id
of `0` also reads `'all'`). -/
def genreKeyPart : Option Int → String
  | some g => if g = 0 then "all" else toString g
  | none => "all"

/-- `fetchMoviesBasic(page, genreId, genreMap)`: page cache lookup, one
`discoverMovies` call on a miss, transform without details, cache the page
result (but only when it has at least one movie). `disc` is the network
oracle giving `discoverMovies`'s response; `rands k` is the `Math.random()`
draw consumed by the `k`-th movie's transform. -/
def fetchMoviesBasic (now : Nat) (page : Int) (genreId : Option Int)
    (genreMap : Int → Option String) (parseYear : String → Option Int)
    (rands : Nat → Rat) (disc : Int → Option Int → TMDBMovieResponse)
    (s : CacheState FetchResult) : FetchResult × CacheState FetchResult × Nat :=
  let cacheKey := getCacheKey "discover_page" (toString page ++ "_" ++ genreKeyPart genreId)
  match getFromCache now cacheKey s with
  | (some cached, s2) => (cached, s2, 0)
  | (none, s2) =>
    let response := disc page genreId
    if response.results.length = 0 then
      (⟨[], 0, 0⟩, s2, 1)
    else
      let movies := response.results.enum.map
        (fun p => transformTMDBMovie parseYear (rands p.1) p.2 genreMap "NR" none)
      let result : FetchResult :=
        ⟨movies, response.total_pages, response.total_results⟩
      (result, saveToCache now cacheKey result s2, 1)

/-- `getMovieDetailsWithCertification(movieId)`: details cache lookup, one
combined (queued) fetch on a miss, certification extraction, cache write.
`net` is the network oracle for the combined endpoint (`Except` models a
failed request). -/
def getMovieDetailsWithCertification (now : Nat) (movieId : Int)
    (net : Int → Except Unit TMDBMovieDetailsWithReleaseDates)
    (s : CacheState CachedMovieDetails) :
    Except Unit CachedMovieDetails × CacheState CachedMovieDetails × Nat :=
  let cacheKey := getCacheKey "movie_details" (toString movieId)
  match getFromCache now cacheKey s with
  | (some cached, s2) => (Except.ok cached, s2, 0)
  | (none, s2) =>
    match net movieId with
    | Except.error e => (Except.error e, s2, 1)
    | Except.ok response =>
      let certification := extractUSCertification (some response.release_dates)
      let result : CachedMovieDetails := ⟨response.toTMDBMovieDetails, certification⟩
      (Except.ok result, saveToCache now cacheKey result s2, 1)

/-- `enrichMovieWithDetails(movie, genreMap)`: on success, a copy of the
movie with tagline/runtime/genre taken from the details when truthy and
`rating` set to the fetched certification; on failure, the original movie. -/
def enrichMovieWithDetails (now : Nat) (movie : Movie)
    (genreMap : Int → Option String)
    (net : Int → Except Unit TMDBMovieDetailsWithReleaseDates)
    (s : CacheState CachedMovieDetails) :
    Movie × CacheState CachedMovieDetails × Nat :=
  match getMovieDetailsWithCertification now movie.id net s with
  | (Except.error _, s2, n) => (movie, s2, n)
  | (Except.ok cd, s2, n) =>
    ({ movie with
        tagline := if cd.details.tagline ≠ "" then cd.details.tagline else movie.tagline
        runtime :=
          match cd.details.runtime with
          | some r => if r ≠ 0 then toString r ++ " min" else movie.runtime
          | none => movie.runtime
        rating := cd.certification
        genre :=
          if cd.details.genres.length > 0 then cd.details.genres.map (fun g => g.name)
          else movie.genre },
     s2, n)

/-! ## Request scheduler (`REQUEST_QUEUE` / `processQueue` / `queueRequest`)

A queued unit of work is modelled by its identity together with the outcome
its `requestFn` would produce (`Except` models a rejected promise). The
drain loop is modelled by the trace of events it performs: starting a unit,
settling that unit's promise with its own outcome, and the inter-request
delay the loop awaits after each unit. -/

instance {ε α : Type} [DecidableEq ε] [DecidableEq α] : DecidableEq (Except ε α) :=
  fun x y =>
    match x, y with
    | Except.ok a, Except.ok b =>
      if h : a = b then isTrue (by rw [h]) else isFalse (by intro hh; cases hh; exact h rfl)
    | Except.error a, Except.error b =>
      if h : a = b then isTrue (by rw [h]) else isFalse (by intro hh; cases hh; exact h rfl)
    | Except.ok _, Except.error _ => isFalse (by intro hh; cases hh)
    | Except.error _, Except.ok _ => isFalse (by intro hh; cases hh)

/-- One observable event of the scheduler's worker loop. -/
inductive QEvent (ι ε α : Type) where
  | start (id : ι)
  | settle (id : ι) (outcome : Except ε α)
  | delay
deriving DecidableEq, Repr

/-- The scheduler's module-level state: the pending queue and the
`isProcessingQueue` guard. -/
structure SchedState (ι ε α : Type) where
  queue : List (ι × Except ε α)
  isProcessingQueue : Bool

/-- The body of `processQueue`'s `while` loop: shift one unit, await the
wrapper `queueRequest` pushed (which settles that unit's own promise and
never throws — its `try/catch` turns a rejection into a settlement), await
the inter-request delay, continue with the rest. -/
def drainLoop {ι ε α : Type} : List (ι × Except ε α) → List (QEvent ι ε α)
  | [] => []
  | (i, u) :: rest => QEvent.start i :: QEvent.settle i u :: QEvent.delay :: drainLoop rest

/-- `processQueue()`: no-op when a worker loop is already running or the
queue is empty; otherwise drains the whole queue and resets the guard. -/
def processQueue {ι ε α : Type} (s : SchedState ι ε α) :
    List (QEvent ι ε α) × SchedState ι ε α :=
  if s.isProcessingQueue || s.queue.isEmpty then ([], s)
  else (drainLoop s.queue, ⟨[], false⟩)

/-- The ids of the units a trace starts, in order. -/
def startsOf {ι ε α : Type} (tr : List (QEvent ι ε α)) : List ι :=
  tr.filterMap (fun e =>
    match e with
    | QEvent.start i => some i
    | _ => none)

/-- The promise settlements a trace delivers, in order, each with the
outcome handed to that unit's own caller. -/
def settlesOf {ι ε α : Type} (tr : List (QEvent ι ε α)) :
    List (ι × Except ε α) :=
  tr.filterMap (fun e =>
    match e with
    | QEvent.settle i u => some (i, u)
    | _ => none)

/-! ## Batch fetch utility -/

/-- The recursion behind `batchFetch` with `batchSize = b + 1`: slice off
one batch, settle all of its fetches (a throwing item contributes no map
entry), recurse on the rest after an inter-batch delay (skipped when the
batch reached the end of the input). Returns the result map (as an ordered
association list), the number of inter-batch delays awaited, and the list
of batches processed. -/
def batchFetchGo {ι ρ ε : Type} (fetchFn : ι → Except ε ρ) (b : Nat) :
    List ι → List (ι × ρ) × Nat × List (List ι)
  | [] => ([], 0, [])
  | x :: xs =>
    let batch := x :: xs.take b
    let rest := xs.drop b
    let settled := batch.filterMap (fun item =>
      match fetchFn item with
      | Except.ok r => some (item, r)
      | Except.error _ => none)
    let next := batchFetchGo fetchFn b rest
    (settled ++ next.1, (if rest.isEmpty then 0 else 1) + next.2.1, batch :: next.2.2)
  termination_by l => l.length
  decreasing_by simp; omega

/-- `batchFetch(items, fetchFn, batchSize)`. With `batchSize = 0` the
source's `for` loop never advances `i` past `0` on a non-empty input and
never returns, hence `none`. -/
def batchFetch {ι ρ ε : Type} (items : List ι) (fetchFn : ι → Except ε ρ)
    (batchSize : Nat) : Option (List (ι × ρ) × Nat × List (List ι)) :=
  match batchSize with
  | 0 => if items.isEmpty then some ([], 0, []) else none
  | b + 1 => some (batchFetchGo fetchFn b items)

/-! ## Concrete fixtures used by witnesses and counterexamples -/

/-- A raw catalog record with a non-empty but unparseable release date. -/
def garbageDateMovie : TMDBMovie :=
  { id := 101, title := "Garbage Date", original_title := "Garbage Date"
    overview := "o", poster_path := some "/p.jpg", backdrop_path := none
    release_date := "garbage", genre_ids := [18], vote_average := 7
    vote_count := 10, popularity := 1, adult := false
    original_language := "en", video := false }

/-- A well-formed raw catalog record. -/
def sampleTMDBMovie : TMDBMovie :=
  { id := 5, title := "Sample", original_title := "Sample"
    overview := "an overview", poster_path := some "/s.jpg", backdrop_path := none
    release_date := "1985-06-13", genre_ids := [18, 35], vote_average := 8
    vote_count := 100, popularity := 2, adult := false
    original_language := "en", video := false }

/-! ## Claim theorems -/

/-- C3: `extractUSCertification` is total (it is a Lean function, defined on
every input shape) and returns the sentinel `"NR"` on an absent structure,
a structure with no results list, a results list with no US entry, a US
entry with an empty release-dates list, or a US entry all of whose entries
carry empty certification strings; and when the US entry's first sub-entry
with a non-empty certification is `"PG-13"`, it returns `"PG-13"`. -/
theorem extractUSCertification_total_and_correct
    (i : Int) (results : List TMDBReleaseDateResult) (us : TMDBReleaseDateResult) :
    (extractUSCertification none = "NR") ∧
    (extractUSCertification (some ⟨i, none⟩) = "NR") ∧
    ((∀ r ∈ results, r.iso_3166_1 ≠ "US") →
      extractUSCertification (some ⟨i, some results⟩) = "NR") ∧
    (results.find? (fun r => r.iso_3166_1 = "US") = some us →
      us.release_dates = [] →
      extractUSCertification (some ⟨i, some results⟩) = "NR") ∧
    (results.find? (fun r => r.iso_3166_1 = "US") = some us →
      (∀ rd ∈ us.release_dates, rd.certification = "") →
      extractUSCertification (some ⟨i, some results⟩) = "NR") ∧
    (∀ e, results.find? (fun r => r.iso_3166_1 = "US") = some us →
      us.release_dates.find? (fun x => x.certification ≠ "") = some e →
      e.certification = "PG-13" →
      extractUSCertification (some ⟨i, some results⟩) = "PG-13") := by
  refine ⟨rfl, rfl, ?_, ?_, ?_, ?_⟩
  · intro h
    have hfind : results.find? (fun r => r.iso_3166_1 = "US") = none := by
      rw [List.find?_eq_none]
      intro r hr
      simpa using h r hr
    simp [extractUSCertification, hfind]
  · intro hfind hemp
    simp [extractUSCertification, hfind, hemp]
  · intro hfind hall
    have hnone : us.release_dates.find? (fun x => x.certification ≠ "") = none := by
      rw [List.find?_eq_none]
      intro x hx
      simpa using hall x hx
    simp only [extractUSCertification, hfind, hnone]
    split <;> rfl
  · intro e hfind hfirst hcert
    have hmem : e ∈ us.release_dates := List.mem_of_find?_eq_some hfirst
    have hlen : 0 < us.release_dates.length := List.length_pos.mpr (by
      intro hemp
      rw [hemp] at hmem
      exact absurd hmem (List.not_mem_nil e))
    have hne : e.certification ≠ "" := by
      rw [hcert]
      decide
    simp only [extractUSCertification, hfind, hfirst]
    rw [if_pos hlen]
    simp [hne, hcert]

/-- Witness for C3 at concrete inputs: a payload whose US entry's first
non-empty certification is `"PG-13"` (behind an empty-certification entry)
yields `"PG-13"`, and concrete malformed payloads yield `"NR"`. -/
theorem extractUSCertification_total_and_correct_witness :
    extractUSCertification
        (some ⟨7, some [⟨"FR", [⟨"12", [], "fr", "", "1985-01-01", 3⟩]⟩,
          ⟨"US", [⟨"", [], "en", "", "1985-01-01", 1⟩,
            ⟨"PG-13", [], "en", "", "1985-02-01", 3⟩]⟩]⟩) = "PG-13" ∧
    extractUSCertification (some ⟨7, some [⟨"FR", [⟨"12", [], "fr", "", "1985-01-01", 3⟩]⟩]⟩) = "NR" ∧
    extractUSCertification none = "NR" := by
  refine ⟨?_, ?_, ?_⟩
  · exact (extractUSCertification_total_and_correct 7 _
      ⟨"US", [⟨"", [], "en", "", "1985-01-01", 1⟩, ⟨"PG-13", [], "en", "", "1985-02-01", 3⟩]⟩).2.2.2.2.2
      ⟨"PG-13", [], "en", "", "1985-02-01", 3⟩ (by decide) (by decide) (by decide)
  · exact (extractUSCertification_total_and_correct 7 _ ⟨"", []⟩).2.2.1 (by decide)
  · exact (extractUSCertification_total_and_correct 7 [] ⟨"", []⟩).1

/-- C9 counterexample: a non-empty malformed release date does not yield a
year of `0` — `new Date('garbage').getFullYear()` is `NaN`, and the
transform stores that `NaN`, not `0`. The date-parse oracle `fun _ => none`
records that the host cannot parse `"garbage"`. -/
theorem transformTMDBMovie_malformed_date_is_nan :
    garbageDateMovie.release_date = "garbage" ∧
    (transformTMDBMovie (fun _ => none) (1/2) garbageDateMovie
        (fun _ => none) "NR" none).year = JSNumber.nan ∧
    JSNumber.nan ≠ JSNumber.num 0 := by
  exact ⟨rfl, rfl, by decide⟩

/-- C9 amended: the view-model year is the parsed release-date year; it is
`0` exactly when the release-date string is empty; a non-empty but
unparseable release date yields `NaN`, not `0`. -/
theorem transformTMDBMovie_year_spec
    (parseYear : String → Option Int) (rand : Rat) (m : TMDBMovie)
    (gm : Int → Option String) (cert : String) (det : Option TMDBMovieDetails) :
    (m.release_date = "" →
      (transformTMDBMovie parseYear rand m gm cert det).year = JSNumber.num 0) ∧
    (∀ y, m.release_date ≠ "" → parseYear m.release_date = some y →
      (transformTMDBMovie parseYear rand m gm cert det).year = JSNumber.num y) ∧
    (m.release_date ≠ "" → parseYear m.release_date = none →
      (transformTMDBMovie parseYear rand m gm cert det).year = JSNumber.nan) := by
  refine ⟨?_, ?_, ?_⟩
  · intro h
    simp [transformTMDBMovie, h]
  · intro y h hp
    simp [transformTMDBMovie, h, hp]
  · intro h hp
    simp [transformTMDBMovie, h, hp]

/-- Witness for C9's amended theorem at concrete inputs. -/
theorem transformTMDBMovie_year_spec_witness :
    (transformTMDBMovie (fun s => if s = "1985-06-13" then some 1985 else none) (1/2)
      sampleTMDBMovie (fun _ => none) "NR" none).year = JSNumber.num 1985 := by
  exact (transformTMDBMovie_year_spec
      (fun s => if s = "1985-06-13" then some 1985 else none) (1/2)
      sampleTMDBMovie (fun _ => none) "NR" none).2.1 1985 (by decide) (by decide)

/-- The set of idealized `Math.random()` draws (uniform on `[0,1)`) for
which `Math.random() > 0.1` holds, i.e. for which the simulated
availability flag comes out `true`. -/
def availableDrawSet : Set ℝ :=
  {r : ℝ | (0 ≤ r ∧ r < 1) ∧ 1 / 10 < r}

theorem availableDrawSet_eq_Ioo : availableDrawSet = Set.Ioo (1 / 10 : ℝ) 1 := by
  ext r
  simp only [availableDrawSet, Set.mem_setOf_eq, Set.mem_Ioo]
  constructor
  · rintro ⟨⟨_, h1⟩, h2⟩
    exact ⟨h2, h1⟩
  · rintro ⟨h2, h1⟩
    exact ⟨⟨by linarith, h1⟩, h2⟩

/-- C10: `transformTMDBMovie` is deterministic in every output field except
`available`: two calls that differ only in their `Math.random()` draw agree
on id, title, year, genre, tagline, rating, runtime, poster, tmdbRating and
overview; the availability flag alone depends on the draw and can differ
between the two calls (draws `1/2` and `1/20` flip it), and the set of
idealized uniform draws making it `true` has measure `9/10`. -/
theorem transformTMDBMovie_deterministic_except_available
    (parseYear : String → Option Int) (r1 r2 : Rat) (m : TMDBMovie)
    (gm : Int → Option String) (cert : String) (det : Option TMDBMovieDetails) :
    ((transformTMDBMovie parseYear r1 m gm cert det).id =
        (transformTMDBMovie parseYear r2 m gm cert det).id ∧
      (transformTMDBMovie parseYear r1 m gm cert det).title =
        (transformTMDBMovie parseYear r2 m gm cert det).title ∧
      (transformTMDBMovie parseYear r1 m gm cert det).year =
        (transformTMDBMovie parseYear r2 m gm cert det).year ∧
      (transformTMDBMovie parseYear r1 m gm cert det).genre =
        (transformTMDBMovie parseYear r2 m gm cert det).genre ∧
      (transformTMDBMovie parseYear r1 m gm cert det).tagline =
        (transformTMDBMovie parseYear r2 m gm cert det).tagline ∧
      (transformTMDBMovie parseYear r1 m gm cert det).rating =
        (transformTMDBMovie parseYear r2 m gm cert det).rating ∧
      (transformTMDBMovie parseYear r1 m gm cert det).runtime =
        (transformTMDBMovie parseYear r2 m gm cert det).runtime ∧
      (transformTMDBMovie parseYear r1 m gm cert det).poster =
        (transformTMDBMovie parseYear r2 m gm cert det).poster ∧
      (transformTMDBMovie parseYear r1 m gm cert det).tmdbRating =
        (transformTMDBMovie parseYear r2 m gm cert det).tmdbRating ∧
      (transformTMDBMovie parseYear r1 m gm cert det).overview =
        (transformTMDBMovie parseYear r2 m gm cert det).overview) ∧
    (transformTMDBMovie parseYear (1/2) m gm cert det).available = true ∧
    (transformTMDBMovie parseYear (1/20) m gm cert det).available = false ∧
    MeasureTheory.volume availableDrawSet = ENNReal.ofReal (9 / 10) := by
  refine ⟨⟨rfl, rfl, rfl, rfl, rfl, rfl, rfl, rfl, rfl, rfl⟩, ?_, ?_, ?_⟩
  · simp [transformTMDBMovie]
    norm_num
  · simp [transformTMDBMovie]
    norm_num
  · rw [availableDrawSet_eq_Ioo, Real.volume_Ioo]
    norm_num

theorem batchFetchGo_spec {ι ρ ε : Type} (fetchFn : ι → Except ε ρ) (b : Nat)
    (items : List ι) :
    (batchFetchGo fetchFn b items).1 = items.filterMap (fun item =>
      match fetchFn item with
      | Except.ok r => some (item, r)
      | Except.error _ => none) ∧
    (batchFetchGo fetchFn b items).2.2.flatten = items ∧
    (∀ g ∈ (batchFetchGo fetchFn b items).2.2, g.length ≤ b + 1 ∧ g ≠ []) ∧
    (batchFetchGo fetchFn b items).2.1 = (batchFetchGo fetchFn b items).2.2.length - 1 := by
  match items with
  | [] => simp [batchFetchGo]
  | x :: xs =>
    have ih := batchFetchGo_spec fetchFn b (xs.drop b)
    have hsplit : x :: xs.take b ++ xs.drop b = x :: xs := by
      simp [List.take_append_drop]
    refine ⟨?_, ?_, ?_, ?_⟩
    · rw [batchFetchGo]
      simp only [ih.1, ← List.filterMap_append]
      rw [show (x :: xs.take b) ++ xs.drop b = x :: xs from hsplit]
    · rw [batchFetchGo]
      simp only [List.flatten_cons, ih.2.1]
      exact hsplit
    · rw [batchFetchGo]
      intro g hg
      simp only [List.mem_cons] at hg
      rcases hg with hg | hg
      · subst hg
        constructor
        · have := List.length_take_le b xs
          simp only [List.length_cons]
          omega
        · simp
      · exact ih.2.2.1 g hg
    · rw [batchFetchGo]
      cases hd : xs.drop b with
      | nil => simp [hd, batchFetchGo]
      | cons y ys =>
        rw [hd] at ih
        have hlen : 0 < (batchFetchGo fetchFn b (y :: ys)).2.2.length := by
          rcases h : (batchFetchGo fetchFn b (y :: ys)).2.2 with _ | ⟨g, gs⟩
          · exfalso
            have hj := ih.2.1
            rw [h] at hj
            exact absurd hj.symm (by simp)
          · simp
        simp [ih.2.2.2]
        omega
  termination_by items.length
  decreasing_by simp; omega

/-- C4: `batchFetch` partitions its input into consecutive groups of at
most `batchSize` (each group non-empty, groups concatenating back to the
input), awaits the inter-batch delay exactly between consecutive groups
(one fewer delay than groups, none after the last), and isolates per-item
failures: the result map holds exactly the pairs whose fetch succeeded, so
a throwing item contributes no entry and removes nothing else. -/
theorem batchFetch_partitions_and_isolates {ι ρ ε : Type} (items : List ι)
    (fetchFn : ι → Except ε ρ) (b : Nat) :
    batchFetch items fetchFn (b + 1) = some (batchFetchGo fetchFn b items) ∧
    (batchFetchGo fetchFn b items).1 = items.filterMap (fun item =>
      match fetchFn item with
      | Except.ok r => some (item, r)
      | Except.error _ => none) ∧
    (batchFetchGo fetchFn b items).2.2.flatten = items ∧
    (∀ g ∈ (batchFetchGo fetchFn b items).2.2, g.length ≤ b + 1 ∧ g ≠ []) ∧
    (batchFetchGo fetchFn b items).2.1 = (batchFetchGo fetchFn b items).2.2.length - 1 := by
  have h := batchFetchGo_spec fetchFn b items
  exact ⟨rfl, h.1, h.2.1, h.2.2.1, h.2.2.2⟩

/-- A per-item fetch over 12 items that throws on item `7` only. -/
def throwOn7 : Nat → Except Unit Nat :=
  fun n => if n = 7 then Except.error () else Except.ok (n * 10)

/-- Witness for C4: with `batchSize = 5` over the 12 items `0..11`, the
groups are `5+5+2`, two inter-batch delays are awaited, and the single
throwing item `7` leaves the other 11 results present. -/
theorem batchFetch_partitions_and_isolates_witness :
    batchFetchGo throwOn7 4 [0, 1, 2, 3, 4, 5, 6, 7, 8, 9, 10, 11] =
      ([(0, 0), (1, 10), (2, 20), (3, 30), (4, 40), (5, 50), (6, 60),
        (8, 80), (9, 90), (10, 100), (11, 110)],
       2, [[0, 1, 2, 3, 4], [5, 6, 7, 8, 9], [10, 11]]) ∧
    (([10, 11] : List Nat).length ≤ 5 ∧ ([10, 11] : List Nat) ≠ []) := by
  constructor
  · simp [batchFetchGo, throwOn7]
  · refine (batchFetch_partitions_and_isolates [0, 1, 2, 3, 4, 5, 6, 7, 8, 9, 10, 11]
      throwOn7 4).2.2.2.1 [10, 11] ?_
    simp [batchFetchGo, throwOn7]

/-- C6: draining the request queue starts every enqueued unit in strict
FIFO order with the inter-request delay awaited after each unit, delivers
each unit's own outcome (success or rejection) to that unit's promise
alone — so a rejecting unit does not stop the loop and every
later-enqueued unit is still started and settled — and resets the
`isProcessingQueue` guard with an empty queue once the queue drains. -/
theorem processQueue_fifo_and_isolation {ι ε α : Type}
    (units : List (ι × Except ε α)) :
    processQueue (SchedState.mk units false) =
      (drainLoop units, SchedState.mk [] false) ∧
    drainLoop units = units.flatMap
      (fun p => [QEvent.start p.1, QEvent.settle p.1 p.2, QEvent.delay]) ∧
    startsOf (drainLoop units) = units.map Prod.fst ∧
    settlesOf (drainLoop units) = units := by
  refine ⟨?_, ?_, ?_, ?_⟩
  · cases units with
    | nil => simp [processQueue, drainLoop]
    | cons u rest => simp [processQueue, drainLoop]
  · induction units with
    | nil => simp [drainLoop]
    | cons u rest ih =>
      cases u
      simp [drainLoop, ih]
  · induction units with
    | nil => simp [drainLoop, startsOf]
    | cons u rest ih =>
      cases u
      simp [drainLoop, startsOf] at ih ⊢
      exact ih
  · induction units with
    | nil => simp [drainLoop, settlesOf]
    | cons u rest ih =>
      cases u
      simp [drainLoop, settlesOf] at ih ⊢
      exact ih

/-- C5: `getFromCache` treats an entry recorded more than 24 hours ago as
absent regardless of tier: when every entry stored for the key (memory or
persistent, where present and parseable) is more than `CACHE_TTL` old, the
read returns `none`; an expired persistent-tier entry is removed from the
persistent store by that read; and a persistent-tier failure (storage
unavailable, or a corrupt serialized payload) is swallowed, reported as a
miss, and leaves the state unchanged. -/
theorem getFromCache_expired_is_absent {T : Type} (now : Nat) (key : String)
    (s : CacheState T)
    (hmem : ∀ e, alookup s.memoryCache key = some e → CACHE_TTL < now - e.timestamp)
    (hls : ∀ e, alookup s.localStorage key = some (LSVal.entry e) →
      CACHE_TTL < now - e.timestamp) :
    (getFromCache now key s).1 = none ∧
    (∀ e, s.localStorageAvailable = true →
      alookup s.localStorage key = some (LSVal.entry e) →
      alookup (getFromCache now key s).2.localStorage key = none) ∧
    ((s.localStorageAvailable = false ∨ alookup s.localStorage key = some LSVal.corrupt) →
      (getFromCache now key s).2 = s) := by
  have hred : getFromCache now key s = getFromCache.getFromCacheLS now key s := by
    cases hma : alookup s.memoryCache key with
    | none => simp [getFromCache, hma]
    | some e =>
      have hx : ¬ (now - e.timestamp < CACHE_TTL) := by
        have := hmem e hma
        omega
      simp [getFromCache, hma, hx]
  rw [hred]
  cases hav : s.localStorageAvailable with
  | false =>
    refine ⟨?_, ?_, ?_⟩
    · simp [getFromCache.getFromCacheLS, hav]
    · intro e hav' _
      exact absurd hav' (by decide)
    · intro _
      simp [getFromCache.getFromCacheLS, hav]
  | true =>
    cases hlsv : alookup s.localStorage key with
    | none =>
      refine ⟨?_, ?_, ?_⟩
      · simp [getFromCache.getFromCacheLS, hav, hlsv]
      · intro e _ hbad
        exact absurd hbad (by simp)
      · intro _
        simp [getFromCache.getFromCacheLS, hav, hlsv]
    | some v =>
      cases v with
      | corrupt =>
        refine ⟨?_, ?_, ?_⟩
        · simp [getFromCache.getFromCacheLS, hav, hlsv]
        · intro e _ hbad
          simp at hbad
        · intro _
          simp [getFromCache.getFromCacheLS, hav, hlsv]
      | entry e =>
        have hexp : ¬ (now - e.timestamp < CACHE_TTL) := by
          have := hls e hlsv
          omega
        refine ⟨?_, ?_, ?_⟩
        · simp [getFromCache.getFromCacheLS, hav, hlsv, hexp]
        · intro e' _ _
          simp [getFromCache.getFromCacheLS, hav, hlsv, hexp, alookup_aerase_self]
        · intro hcon
          rcases hcon with hcon | hcon
          · exact absurd hcon (by decide)
          · simp at hcon

/-- A cache state holding, under one details key, an entry written at time
`0` in both tiers. -/
def expiredFixture : CacheState Nat :=
  ⟨[("tmdb_cache_movie_details_9", ⟨1, 0⟩)], true,
   [("tmdb_cache_movie_details_9", LSVal.entry ⟨2, 0⟩)]⟩

/-- Witness for C5: reading that key `CACHE_TTL + 1` milliseconds later
misses and removes the persistent copy. -/
theorem getFromCache_expired_is_absent_witness :
    (getFromCache (CACHE_TTL + 1) "tmdb_cache_movie_details_9" expiredFixture).1 = none ∧
    (∀ e, expiredFixture.localStorageAvailable = true →
      alookup expiredFixture.localStorage "tmdb_cache_movie_details_9" =
        some (LSVal.entry e) →
      alookup (getFromCache (CACHE_TTL + 1) "tmdb_cache_movie_details_9"
          expiredFixture).2.localStorage "tmdb_cache_movie_details_9" = none) ∧
    ((expiredFixture.localStorageAvailable = false ∨
        alookup expiredFixture.localStorage "tmdb_cache_movie_details_9" =
          some LSVal.corrupt) →
      (getFromCache (CACHE_TTL + 1) "tmdb_cache_movie_details_9"
          expiredFixture).2 = expiredFixture) := by
  refine getFromCache_expired_is_absent (CACHE_TTL + 1) "tmdb_cache_movie_details_9"
    expiredFixture ?_ ?_
  · intro e he
    simp [expiredFixture, alookup] at he
    subst he
    decide
  · intro e he
    simp [expiredFixture, alookup] at he
    subst he
    decide

theorem isPrefixOf_app (l t : List Char) : l.isPrefixOf (l ++ t) = true := by
  induction l with
  | nil => simp [List.isPrefixOf]
  | cons c cs ih => simp [List.isPrefixOf, ih]

theorem jsStartsWith_append (p t : String) : jsStartsWith (p ++ t) p = true := by
  simp only [jsStartsWith, String.data_append]
  exact isPrefixOf_app _ _

/-- `alookup` through the key filter `clearCache` applies. -/
theorem alookup_clear_filter {β : Type} (l : List (String × β)) (k : String) :
    alookup (l.filter (fun p => ¬ jsStartsWith p.1 CACHE_PREFIX)) k =
      if jsStartsWith k CACHE_PREFIX then none else alookup l k := by
  have h := alookup_filter_key (fun x => decide (¬ jsStartsWith x CACHE_PREFIX)) l k
  cases hjk : jsStartsWith k CACHE_PREFIX with
  | false =>
    simp only [hjk] at h ⊢
    simpa using h
  | true =>
    simp only [hjk] at h ⊢
    simpa using h

/-- Every generated cache key carries the namespace tag. -/
theorem getCacheKey_startsWith (type id : String) :
    jsStartsWith (getCacheKey type id) CACHE_PREFIX = true := by
  unfold getCacheKey
  rw [String.append_assoc, String.append_assoc]
  exact jsStartsWith_append _ _

/-- C8: `clearCache` empties the in-memory map; in the persistent store it
removes exactly the keys carrying the `tmdb_cache_` namespace tag (every
key not carrying the tag keeps its binding); and a `fetchMoviesBasic` call
immediately after `clearCache` always issues a fresh network request, even
if an unexpired entry for that page existed before the clear. -/
theorem clearCache_exact_and_forces_refetch {T : Type} (s : CacheState T)
    (k : String) (now : Nat) (page : Int) (g : Option Int)
    (gm : Int → Option String) (parseYear : String → Option Int)
    (rands : Nat → Rat) (disc : Int → Option Int → TMDBMovieResponse)
    (sf : CacheState FetchResult) :
    (clearCache s).memoryCache = [] ∧
    (s.localStorageAvailable = true → jsStartsWith k CACHE_PREFIX = true →
      alookup (clearCache s).localStorage k = none) ∧
    (jsStartsWith k CACHE_PREFIX = false →
      alookup (clearCache s).localStorage k = alookup s.localStorage k) ∧
    (fetchMoviesBasic now page g gm parseYear rands disc (clearCache sf)).2.2 = 1 := by
  refine ⟨rfl, ?_, ?_, ?_⟩
  · intro hav hpre
    simp only [clearCache, hav, if_true]
    rw [alookup_clear_filter, hpre]
    rfl
  · intro hpre
    cases hav : s.localStorageAvailable with
    | false => simp [clearCache, hav]
    | true =>
      simp only [clearCache, hav, if_true]
      rw [alookup_clear_filter, hpre]
      rfl
  · have hkey := getCacheKey_startsWith "discover_page"
      (toString page ++ "_" ++ genreKeyPart g)
    have hget : getFromCache now
        (getCacheKey "discover_page" (toString page ++ "_" ++ genreKeyPart g))
        (clearCache sf) = (none, clearCache sf) := by
      cases hav : sf.localStorageAvailable with
      | false =>
        simp [getFromCache, getFromCache.getFromCacheLS, clearCache, alookup, hav]
      | true =>
        simp only [getFromCache, clearCache, alookup]
        simp only [getFromCache.getFromCacheLS, hav, if_true]
        rw [alookup_clear_filter, hkey]
        rfl
    simp only [fetchMoviesBasic, hget]
    split <;> rfl

/-- A cache state holding an unexpired page entry under the discover key,
next to an unrelated application's key. -/
def pageFixture : CacheState FetchResult :=
  ⟨[("tmdb_cache_discover_page_1_all", ⟨⟨[], 3, 50⟩, 0⟩)], true,
   [("tmdb_cache_discover_page_1_all", LSVal.entry ⟨⟨[], 3, 50⟩, 0⟩),
    ("other_app_key", LSVal.entry ⟨⟨[], 7, 70⟩, 0⟩)]⟩

/-- Witness for C8: clearing `pageFixture` removes the namespaced key,
keeps the unrelated key's binding, and the next `fetchMoviesBasic 1` call
issues one network request even though an unexpired entry existed. -/
theorem clearCache_exact_and_forces_refetch_witness :
    alookup (clearCache pageFixture).localStorage "tmdb_cache_discover_page_1_all" = none ∧
    alookup (clearCache pageFixture).localStorage "other_app_key" =
      alookup pageFixture.localStorage "other_app_key" ∧
    (getFromCache 0 "tmdb_cache_discover_page_1_all" pageFixture).1 =
      some ⟨[], 3, 50⟩ ∧
    (fetchMoviesBasic 0 1 none (fun _ => none) (fun _ => none) (fun _ => 1/2)
      (fun _ _ => ⟨1, [sampleTMDBMovie], 1, 1⟩) (clearCache pageFixture)).2.2 = 1 := by
  refine ⟨?_, ?_, ?_, ?_⟩
  · exact (clearCache_exact_and_forces_refetch pageFixture
      "tmdb_cache_discover_page_1_all" 0 1 none (fun _ => none) (fun _ => none)
      (fun _ => 1/2) (fun _ _ => ⟨1, [sampleTMDBMovie], 1, 1⟩) pageFixture).2.1
      rfl (by decide)
  · exact (clearCache_exact_and_forces_refetch pageFixture
      "other_app_key" 0 1 none (fun _ => none) (fun _ => none)
      (fun _ => 1/2) (fun _ _ => ⟨1, [sampleTMDBMovie], 1, 1⟩) pageFixture).2.2.1
      (by decide)
  · rfl
  · exact (clearCache_exact_and_forces_refetch pageFixture
      "tmdb_cache_discover_page_1_all" 0 1 none (fun _ => none) (fun _ => none)
      (fun _ => 1/2) (fun _ _ => ⟨1, [sampleTMDBMovie], 1, 1⟩) pageFixture).2.2.2

/-- A network oracle whose discover endpoint reports zero results. -/
def emptyPageDisc : Int → Option Int → TMDBMovieResponse :=
  fun _ _ => ⟨1, [], 0, 0⟩

/-- A network oracle whose discover endpoint returns one movie. -/
def onePageDisc : Int → Option Int → TMDBMovieResponse :=
  fun _ _ => ⟨1, [sampleTMDBMovie], 1, 1⟩

/-- C1 counterexample: a page whose response contains zero results is not
written to the cache (the early return precedes `saveToCache`), so the
second identical `fetchMoviesBasic` call issues a network request again —
two consecutive identical calls issue two requests, not one. -/
theorem fetchMoviesBasic_zero_result_page_not_cached :
    (emptyPageDisc 1 none).results = [] ∧
    (fetchMoviesBasic 0 1 none (fun _ => none) (fun _ => none) (fun _ => 1/2)
      emptyPageDisc ⟨[], true, []⟩).2.2 = 1 ∧
    (fetchMoviesBasic 0 1 none (fun _ => none) (fun _ => none) (fun _ => 1/2)
      emptyPageDisc
      (fetchMoviesBasic 0 1 none (fun _ => none) (fun _ => none) (fun _ => 1/2)
        emptyPageDisc ⟨[], true, []⟩).2.1).2.2 = 1 :=
  ⟨rfl, rfl, rfl⟩

/-- C1 amended: for a page whose response contains at least one result, a
`fetchMoviesBasic` call that issued its network request makes the
immediately following identical call (within the TTL) a pure cache hit: it
returns the same page result and the same cache state and issues zero
network requests. (Zero-result pages are excluded: they are returned
without being cached and are re-fetched on every call.) -/
theorem fetchMoviesBasic_second_call_is_cache_hit
    (now now' : Nat) (page : Int) (g : Option Int) (gm : Int → Option String)
    (parseYear : String → Option Int) (rands : Nat → Rat)
    (disc : Int → Option Int → TMDBMovieResponse) (s : CacheState FetchResult)
    (hres : (disc page g).results ≠ [])
    (hfirst : (fetchMoviesBasic now page g gm parseYear rands disc s).2.2 = 1)
    (hts : now' - now < CACHE_TTL) :
    fetchMoviesBasic now' page g gm parseYear rands disc
        (fetchMoviesBasic now page g gm parseYear rands disc s).2.1 =
      ((fetchMoviesBasic now page g gm parseYear rands disc s).1,
       (fetchMoviesBasic now page g gm parseYear rands disc s).2.1, 0) := by
  cases hgc : getFromCache now
      (getCacheKey "discover_page" (toString page ++ "_" ++ genreKeyPart g)) s with
  | mk v s2 =>
    cases v with
    | some c =>
      exfalso
      simp [fetchMoviesBasic, hgc] at hfirst
    | none =>
      have hlen : ¬ ((disc page g).results.length = 0) := by
        intro h
        exact hres (List.length_eq_zero.mp h)
      have h2 := getFromCache_after_save now now'
        (getCacheKey "discover_page" (toString page ++ "_" ++ genreKeyPart g))
        ((⟨(disc page g).results.enum.map
            (fun p => transformTMDBMovie parseYear (rands p.1) p.2 gm "NR" none),
          (disc page g).total_pages, (disc page g).total_results⟩ : FetchResult))
        s2 hts
      simp [fetchMoviesBasic, hgc, hlen, h2]

/-- Witness for C1's amended theorem: a concrete one-movie page, fetched
cold at time `0` and again at time `5`. -/
theorem fetchMoviesBasic_second_call_is_cache_hit_witness :
    fetchMoviesBasic 5 1 none (fun _ => none) (fun _ => some 1985) (fun _ => 1/2)
        onePageDisc
        (fetchMoviesBasic 0 1 none (fun _ => none) (fun _ => some 1985) (fun _ => 1/2)
          onePageDisc ⟨[], true, []⟩).2.1 =
      ((fetchMoviesBasic 0 1 none (fun _ => none) (fun _ => some 1985) (fun _ => 1/2)
          onePageDisc ⟨[], true, []⟩).1,
       (fetchMoviesBasic 0 1 none (fun _ => none) (fun _ => some 1985) (fun _ => 1/2)
          onePageDisc ⟨[], true, []⟩).2.1, 0) := by
  refine fetchMoviesBasic_second_call_is_cache_hit 0 5 1 none (fun _ => none)
    (fun _ => some 1985) (fun _ => 1/2) onePageDisc ⟨[], true, []⟩ ?_ ?_ ?_
  · decide
  · rfl
  · decide

theorem append_min_ne_empty (s : String) : s ++ " min" ≠ "" := by
  intro h
  have hlen := congrArg String.length h
  rw [String.length_append] at hlen
  have h4 : (" min" : String).length = 4 := rfl
  have h0 : ("" : String).length = 0 := rfl
  rw [h4, h0] at hlen
  omega

/-- Details payload whose release dates carry no US entry (certification
extracts to `"NR"`), with empty tagline and genres. -/
def detailsNoUS : TMDBMovieDetailsWithReleaseDates :=
  { toTMDBMovie := sampleTMDBMovie
    tagline := "", runtime := some 100, genres := [], status := "Released"
    budget := 0, revenue := 0, imdb_id := none
    release_dates := ⟨5, some []⟩ }

/-- An already-populated view-model movie whose rating is `"PG-13"`. -/
def populatedMovie : Movie :=
  { id := 5, title := "Sample", year := JSNumber.num 1985, genre := ["Drama"]
    tagline := "a tagline", rating := "PG-13", runtime := "100 min"
    available := true, poster := "/s.jpg", backdrop := none
    tmdbRating := some 8, overview := some "an overview" }

/-- C2 counterexample: `rating` is replaced unconditionally by the fetched
certification. A successful details fetch whose certification extracts to
the default `"NR"` regresses a movie whose rating was the populated
`"PG-13"` back to `"NR"`. -/
theorem enrichMovieWithDetails_regresses_rating :
    (getMovieDetailsWithCertification 0 populatedMovie.id
        (fun _ => Except.ok detailsNoUS) ⟨[], true, []⟩).1 =
      Except.ok ⟨detailsNoUS.toTMDBMovieDetails, "NR"⟩ ∧
    populatedMovie.rating = "PG-13" ∧
    (enrichMovieWithDetails 0 populatedMovie (fun _ => none)
        (fun _ => Except.ok detailsNoUS) ⟨[], true, []⟩).1.rating = "NR" :=
  ⟨rfl, rfl, rfl⟩

/-- C2 amended: on a successful fetch, `enrichMovieWithDetails` returns a
copy of the input in which tagline, runtime and genre names are replaced by
the fetched values only where those are non-empty/non-zero (so those three
fields never regress from populated to empty), every field other than the
four detail fields is preserved unchanged, but `rating` is replaced
unconditionally by the fetched certification — even when that certification
is the `"NR"` default and the input rating was populated. -/
theorem enrichMovieWithDetails_success_spec
    (now : Nat) (movie : Movie) (gm : Int → Option String)
    (net : Int → Except Unit TMDBMovieDetailsWithReleaseDates)
    (s : CacheState CachedMovieDetails) (cd : CachedMovieDetails)
    (cs : CacheState CachedMovieDetails) (n : Nat)
    (hok : getMovieDetailsWithCertification now movie.id net s = (Except.ok cd, cs, n)) :
    ((enrichMovieWithDetails now movie gm net s).1.tagline =
      if cd.details.tagline ≠ "" then cd.details.tagline else movie.tagline) ∧
    ((enrichMovieWithDetails now movie gm net s).1.runtime =
      match cd.details.runtime with
      | some r => if r ≠ 0 then toString r ++ " min" else movie.runtime
      | none => movie.runtime) ∧
    ((enrichMovieWithDetails now movie gm net s).1.rating = cd.certification) ∧
    ((enrichMovieWithDetails now movie gm net s).1.genre =
      if cd.details.genres.length > 0 then cd.details.genres.map (fun g => g.name)
      else movie.genre) ∧
    (movie.tagline ≠ "" → (enrichMovieWithDetails now movie gm net s).1.tagline ≠ "") ∧
    (movie.runtime ≠ "" → (enrichMovieWithDetails now movie gm net s).1.runtime ≠ "") ∧
    (movie.genre ≠ [] → (enrichMovieWithDetails now movie gm net s).1.genre ≠ []) ∧
    ({ (enrichMovieWithDetails now movie gm net s).1 with
        tagline := movie.tagline, runtime := movie.runtime,
        rating := movie.rating, genre := movie.genre } = movie) := by
  have hr : (enrichMovieWithDetails now movie gm net s).1 =
      { movie with
        tagline := if cd.details.tagline ≠ "" then cd.details.tagline else movie.tagline
        runtime :=
          match cd.details.runtime with
          | some r => if r ≠ 0 then toString r ++ " min" else movie.runtime
          | none => movie.runtime
        rating := cd.certification
        genre :=
          if cd.details.genres.length > 0 then cd.details.genres.map (fun g => g.name)
          else movie.genre } := by
    simp [enrichMovieWithDetails, hok]
  rw [hr]
  refine ⟨rfl, rfl, rfl, rfl, ?_, ?_, ?_, rfl⟩
  · intro h
    by_cases hc : cd.details.tagline = "" <;> simp [hc, h]
  · intro h
    cases hrt : cd.details.runtime with
    | none => simpa using h
    | some r =>
      by_cases hz : r = 0
      · simpa [hz] using h
      · simpa [hz] using append_min_ne_empty (toString r)
  · intro h
    by_cases hg : cd.details.genres.length > 0
    · simp only [hg, if_true]
      intro hemp
      rw [List.map_eq_nil_iff] at hemp
      rw [hemp] at hg
      simp at hg
    · simpa [hg] using h

/-- Details payload with populated tagline, runtime, genres and a US `"R"`
certification. -/
def detailsRich : TMDBMovieDetailsWithReleaseDates :=
  { toTMDBMovie := sampleTMDBMovie
    tagline := "A new tagline", runtime := some 96, genres := [⟨18, "Drama"⟩]
    status := "Released", budget := 0, revenue := 0, imdb_id := none
    release_dates := ⟨5, some [⟨"US", [⟨"R", [], "en", "", "1985-06-13", 3⟩]⟩]⟩ }

/-- Witness for C2's amended theorem: enriching `populatedMovie` with the
rich payload takes the fetched tagline/runtime/genres and rating `"R"`. -/
theorem enrichMovieWithDetails_success_spec_witness :
    (enrichMovieWithDetails 0 populatedMovie (fun _ => none)
        (fun _ => Except.ok detailsRich) ⟨[], true, []⟩).1.rating = "R" ∧
    (enrichMovieWithDetails 0 populatedMovie (fun _ => none)
        (fun _ => Except.ok detailsRich) ⟨[], true, []⟩).1.tagline = "A new tagline" := by
  have h := enrichMovieWithDetails_success_spec 0 populatedMovie (fun _ => none)
    (fun _ => Except.ok detailsRich) ⟨[], true, []⟩
    ⟨detailsRich.toTMDBMovieDetails, "R"⟩
    (saveToCache 0 (getCacheKey "movie_details" (toString populatedMovie.id))
      ⟨detailsRich.toTMDBMovieDetails, "R"⟩ ⟨[], true, []⟩) 1 rfl
  refine ⟨?_, ?_⟩
  · rw [h.2.2.1]
  · rw [h.1]
    rfl

/-- C7: `enrichMovieWithDetails` is idempotent through the details cache:
after a first enrichment whose underlying details fetch succeeded over the
network (and was therefore cached), enriching the enriched movie again
within the TTL issues zero network requests and zero queue admissions
(the count component is `0`), returns a movie equal to the first
enrichment's result, and leaves the cache state unchanged. -/
theorem enrichMovieWithDetails_idempotent
    (now now' : Nat) (movie : Movie) (gm : Int → Option String)
    (net : Int → Except Unit TMDBMovieDetailsWithReleaseDates)
    (s : CacheState CachedMovieDetails) (cd : CachedMovieDetails)
    (cs : CacheState CachedMovieDetails)
    (hfetch : getMovieDetailsWithCertification now movie.id net s =
      (Except.ok cd, cs, 1))
    (hts : now' - now < CACHE_TTL) :
    enrichMovieWithDetails now' (enrichMovieWithDetails now movie gm net s).1 gm net
        (enrichMovieWithDetails now movie gm net s).2.1 =
      ((enrichMovieWithDetails now movie gm net s).1,
       (enrichMovieWithDetails now movie gm net s).2.1, 0) := by
  have hcs : getFromCache now' (getCacheKey "movie_details" (toString movie.id)) cs =
      (some cd, cs) := by
    cases hgc : getFromCache now (getCacheKey "movie_details" (toString movie.id)) s with
    | mk v s2 =>
      cases v with
      | some c =>
        exfalso
        simp [getMovieDetailsWithCertification, hgc] at hfetch
      | none =>
        cases hnet : net movie.id with
        | error e =>
          exfalso
          simp [getMovieDetailsWithCertification, hgc, hnet] at hfetch
        | ok resp =>
          have hfetch' := hfetch
          simp only [getMovieDetailsWithCertification, hgc, hnet, Prod.mk.injEq,
            Except.ok.injEq] at hfetch'
          obtain ⟨hcd, hcs', -⟩ := hfetch'
          rw [← hcs', ← hcd]
          exact getFromCache_after_save now now'
            (getCacheKey "movie_details" (toString movie.id))
            ⟨resp.toTMDBMovieDetails, extractUSCertification (some resp.release_dates)⟩
            s2 hts
  have hen1 : enrichMovieWithDetails now movie gm net s =
      ({ movie with
          tagline := if cd.details.tagline ≠ "" then cd.details.tagline else movie.tagline
          runtime :=
            match cd.details.runtime with
            | some r => if r ≠ 0 then toString r ++ " min" else movie.runtime
            | none => movie.runtime
          rating := cd.certification
          genre :=
            if cd.details.genres.length > 0 then cd.details.genres.map (fun g => g.name)
            else movie.genre }, cs, 1) := by
    simp [enrichMovieWithDetails, hfetch]
  rw [hen1]
  have hget2 : getMovieDetailsWithCertification now'
      ({ movie with
          tagline := if cd.details.tagline ≠ "" then cd.details.tagline else movie.tagline
          runtime :=
            match cd.details.runtime with
            | some r => if r ≠ 0 then toString r ++ " min" else movie.runtime
            | none => movie.runtime
          rating := cd.certification
          genre :=
            if cd.details.genres.length > 0 then cd.details.genres.map (fun g => g.name)
            else movie.genre } : Movie).id net cs = (Except.ok cd, cs, 0) := by
    simp [getMovieDetailsWithCertification, hcs]
  simp only [enrichMovieWithDetails, hget2, Prod.mk.injEq, and_true]
  by_cases hc : cd.details.tagline = "" <;>
  by_cases hg : cd.details.genres.length > 0 <;>
  (rcases hrt : cd.details.runtime with _ | r
   · simp [hc, hg, hrt]
   · by_cases hz : r = 0 <;> simp [hc, hg, hrt, hz])

/-- Witness for C7: a concrete first enrichment at time `0` (cold cache,
network success) followed by a second enrichment at time `7`. -/
theorem enrichMovieWithDetails_idempotent_witness :
    enrichMovieWithDetails 7
        (enrichMovieWithDetails 0 populatedMovie (fun _ => none)
          (fun _ => Except.ok detailsRich) ⟨[], true, []⟩).1
        (fun _ => none) (fun _ => Except.ok detailsRich)
        (enrichMovieWithDetails 0 populatedMovie (fun _ => none)
          (fun _ => Except.ok detailsRich) ⟨[], true, []⟩).2.1 =
      ((enrichMovieWithDetails 0 populatedMovie (fun _ => none)
          (fun _ => Except.ok detailsRich) ⟨[], true, []⟩).1,
       (enrichMovieWithDetails 0 populatedMovie (fun _ => none)
          (fun _ => Except.ok detailsRich) ⟨[], true, []⟩).2.1, 0) :=
  enrichMovieWithDetails_idempotent 0 7 populatedMovie (fun _ => none)
    (fun _ => Except.ok detailsRich) ⟨[], true, []⟩
    ⟨detailsRich.toTMDBMovieDetails, "R"⟩
    (saveToCache 0 (getCacheKey "movie_details" (toString populatedMovie.id))
      ⟨detailsRich.toTMDBMovieDetails, "R"⟩ ⟨[], true, []⟩)
    rfl (by decide)

end TMDB
